import Mathlib

/-!
Verification of the curiomuz IRC bot core (`bot.py`): wire parsing,
command registration and dispatch, the reply primitive and the main loop.
Python strings are embedded as `List Char` (`Str`); the Python split
functions are modelled with their exact semantics (separator splits keep
empty fields, bare `str.split()` drops them).
-/

set_option autoImplicit false

namespace Curiomuz

/-- Python strings, embedded as lists of characters. -/
abbrev Str := List Char

/-- Python `" ".join(parts)`. -/
def joinSpace (parts : List Str) : Str :=
  match parts with
  | [] => []
  | [p] => p
  | p :: rest => p ++ ' ' :: joinSpace rest

/-- Python `s.split(sep)` for a one-character separator `sep`:
splits at every occurrence and keeps empty fields. -/
def splitOnChar (sep : Char) : Str → List Str
  | [] => [[]]
  | c :: rest =>
    match splitOnChar sep rest with
    | [] => [[]]
    | h :: t => if c = sep then [] :: h :: t else (c :: h) :: t

/-- Generalisation of `splitOnChar` to a predicate on characters,
used to model Python's bare `str.split()`. -/
def splitWhen (p : Char → Bool) : Str → List Str
  | [] => [[]]
  | c :: rest =>
    match splitWhen p rest with
    | [] => [[]]
    | h :: t => if p c then [] :: h :: t else (c :: h) :: t

/-- Characters Python's bare `str.split()` (and default `str.strip()`)
treats as whitespace: the code points of CPython's
`_PyUnicode_IsWhitespace` — U+0009-U+000D, U+001C-U+001F, U+0020,
U+0085, U+00A0, U+1680, U+2000-U+200A, U+2028, U+2029, U+202F, U+205F
and U+3000. -/
def isSpaceChar (c : Char) : Bool :=
  (9 ≤ c.toNat ∧ c.toNat ≤ 13) ∨ (28 ≤ c.toNat ∧ c.toNat ≤ 32) ∨
  c.toNat = 0x85 ∨ c.toNat = 0xA0 ∨ c.toNat = 0x1680 ∨
  (0x2000 ≤ c.toNat ∧ c.toNat ≤ 0x200A) ∨ c.toNat = 0x2028 ∨
  c.toNat = 0x2029 ∨ c.toNat = 0x202F ∨ c.toNat = 0x205F ∨
  c.toNat = 0x3000

/-- Python `s.split()` with no separator: split on whitespace runs,
discarding empty fields (so `"".split() = []`). -/
def wsSplit (s : Str) : List Str :=
  (splitWhen isSpaceChar s).filter (fun w => w ≠ [])

/-- Break `s` at the first occurrence of the character `sep`:
`some (pre, post)` with `s = pre ++ sep :: post`, or `none` when `sep`
does not occur.  Models one step of Python `s.split(sep, 1)`. -/
def breakOnChar (sep : Char) : Str → Option (Str × Str)
  | [] => none
  | c :: rest =>
    if c = sep then some ([], rest)
    else
      match breakOnChar sep rest with
      | some (pre, post) => some (c :: pre, post)
      | none => none

/-- Break `s` at the first occurrence of the two-character substring
`" :"`, as Python `s.split(" :", 1)` does when the separator occurs. -/
def breakOnSpColon : Str → Option (Str × Str)
  | [] => none
  | [_] => none
  | c1 :: c2 :: rest =>
    if c1 = ' ' ∧ c2 = ':' then some ([], rest)
    else
      match breakOnSpColon (c2 :: rest) with
      | some (pre, post) => some (c1 :: pre, post)
      | none => none

/-- Python `" :" in s`: does the two-character substring occur? -/
def containsSpColon : Str → Bool
  | [] => false
  | [_] => false
  | c1 :: c2 :: rest => (c1 = ' ' ∧ c2 = ':') || containsSpColon (c2 :: rest)

/-- Python `s.replace(pat, sub, 1)`: replace the first occurrence only. -/
def replaceFirst (pat sub : Str) : Str → Str
  | [] => []
  | c :: rest =>
    if pat.isPrefixOf (c :: rest) then sub ++ (c :: rest).drop pat.length
    else c :: replaceFirst pat sub rest

/-- Python `s.strip(chars)`: drop characters satisfying `p` from both ends. -/
def pyStrip (p : Char → Bool) (s : Str) : Str :=
  ((s.dropWhile p).reverse.dropWhile p).reverse

/-- Python `s.strip("\r\n")`, applied by the parser to the raw line. -/
def stripCRLF (s : Str) : Str :=
  pyStrip (fun c => c = '\r' ∨ c = '\n') s

/-- Python `s.startswith(p)`. -/
def pyStartsWith (p s : Str) : Bool := p.isPrefixOf s

/-- Python `s.endswith(p)`. -/
def pyEndsWith (p s : Str) : Bool := p.reverse.isPrefixOf s.reverse

/-- Python `s.upper()` on the ASCII names this bot uses. -/
def pyUpper (s : Str) : Str := s.map Char.toUpper

/-- Membership in Python's `string.punctuation`
(the ASCII codepoints 33-47, 58-64, 91-96 and 123-126). -/
def isPunct (c : Char) : Bool :=
  (33 ≤ c.toNat ∧ c.toNat ≤ 47) ∨ (58 ≤ c.toNat ∧ c.toNat ≤ 64) ∨
  (91 ≤ c.toNat ∧ c.toNat ≤ 96) ∨ (123 ≤ c.toNat ∧ c.toNat ≤ 126)

/-- Result of `_parse_sender` (`bot.py` lines 149-162): a user prefix
`nick!user@hostname` or a bare server name. -/
inductive Sender where
  | user (nick user hostname : Str)
  | server (name : Str)
  deriving DecidableEq, Repr

/-- Event record built by `_parse_message` (`bot.py` lines 165-187).
The convenience attributes set only for some commands are `Option`s;
`none` models the attribute being absent. -/
structure Event where
  sender : Sender
  command : Str
  params : List Str
  target : Option Str := none
  message : Option Str := none
  channel : Option Str := none
  reason : Option Str := none
  deriving DecidableEq, Repr

/-- Embedding of `_parse_sender` (`bot.py` lines 149-162).  `none` models the
failing paths: the `assert sender.startswith(":")` and the `ValueError`
from `user.split("@", 1)` unpacking when no `@` is present. -/
def parse_sender (sender : Str) : Option Sender :=
  match sender with
  | [] => none
  | c :: s =>
    if c = ':' then
      if s.contains '!' then
        match breakOnChar '!' s with
        | some (nick, rest) =>
          match breakOnChar '@' rest with
          | some (user, hostname) => some (.user nick user hostname)
          | none => none
        | none => none
      else some (.server s)
    else none

/-- Embedding of `raw_msg.strip("\r\n").split(" ", 2)` followed by the
three-way unpacking (`bot.py` line 166): `none` models the `ValueError`
raised when fewer than three space-separated parts exist. -/
def split2 (s : Str) : Option (Str × Str × Str) :=
  match splitOnChar ' ' s with
  | a :: b :: c :: rest => some (a, b, joinSpace (c :: rest))
  | _ => none

/-- Embedding of the parameter-list construction (`bot.py` lines 167-173):
split at the first `" :"` when present, keeping everything after it as one
trailing element, otherwise split the whole string on spaces. -/
def buildParams (params : Str) : List Str :=
  match breakOnSpColon params with
  | none => splitOnChar ' ' params
  | some (start, e) => splitOnChar ' ' start ++ [e]

/-- Embedding of the convenience-attribute assignments
(`bot.py` lines 181-187); `none` models the `ValueError` raised by tuple
unpacking when the parameter count does not match. -/
def addConvenience (ev : Event) : Option Event :=
  if ev.command = "JOIN".toList ∨ ev.command = "PART".toList ∨
      ev.command = "QUIT".toList then
    match ev.params with
    | [t] => some { ev with target := some t }
    | _ => none
  else if ev.command = "PRIVMSG".toList then
    match ev.params with
    | [t, m] => some { ev with target := some t, message := some m }
    | _ => none
  else if ev.command = "KICK".toList then
    match ev.params with
    | [c, t, r] =>
      some { ev with channel := some c, target := some t, reason := some r }
    | _ => none
  else some ev

/-- Embedding of `_parse_message` (`bot.py` lines 165-187). -/
def parse_message (raw : Str) : Option Event :=
  match split2 (stripCRLF raw) with
  | none => none
  | some (sender, command, params) =>
    match parse_sender sender with
    | none => none
    | some snd =>
      addConvenience { sender := snd, command := command,
                       params := buildParams params }

/-- Embedding of `IrcBot._send` (`bot.py` lines 197-201): join the fields
with single spaces and append `"\r\n"` only when the joined data does not
already end with it. -/
def send (data : List Str) : Str :=
  let joined := joinSpace data
  if pyEndsWith ("\r\n".toList) joined then joined
  else joined ++ ("\r\n".toList)

/-- Python `event.sender["nick"]`: `none` models the `KeyError` raised when
the sender is a server record, which has no `"nick"` key. -/
def senderNick : Sender → Option Str
  | .user n _ _ => some n
  | .server _ => none

/-- Embedding of `IrcBot.reply` (`bot.py` lines 203-207): the outbound
target is `event.params[0]`, replaced by the sender's nick when it equals
the bot's own nick; the result is the wire line written by `_send`.
`none` models the `IndexError` on empty `params` and the `KeyError` from
`sender["nick"]` on a server sender. -/
def reply (nick : Str) (ev : Event) (data : List Str) : Option Str :=
  match ev.params with
  | [] => none
  | p0 :: _ =>
    match (if p0 = nick then senderNick ev.sender else some p0) with
    | none => none
    | some source =>
      some (send [("PRIVMSG".toList), source, ':' :: joinSpace data])

/-- Model of a raised Python exception: its type name and its message. -/
structure PyExc where
  kind : Str
  msg : Str
  deriving DecidableEq, Repr

/-- Reply text `f"{type(e).__name__}: {e}"` built by `_try_except_run`
(`bot.py` line 41). -/
def excText (e : PyExc) : Str := e.kind ++ ':' :: ' ' :: e.msg

/-- Model of one command-handler execution: the reply texts the handler
body sends, and the exception it raises at the end, if any. -/
abbrev HandlerRun := List Str × Option PyExc

/-- Embedding of `_try_except_run` (`bot.py` lines 36-41): await the
handler; if it raises, log and send exactly one further reply whose text is
`excText`.  The result is the complete list of reply texts produced; the
function is total, so no exception escapes to the caller. -/
def try_except_run (run : HandlerRun) : List Str :=
  match run.2 with
  | none => run.1
  | some e => run.1 ++ [excText e]

/-- Entry of the `_commands` registry (`bot.py` line 15): the tuple
`(func, usage, min_args, max_args)` with the handler modelled as a pure
function from the event and argument tokens to its `HandlerRun`. -/
structure CommandEntry where
  func : Event → List Str → HandlerRun
  usage : Str
  minargs : Nat
  maxargs : Nat

/-- Outcome of one `_command_dispatcher` invocation.  `error` models an
exception escaping the dispatcher body itself (the `ValueError` from
unpacking an empty token list); `noCommand` the silent fall-through for
unregistered words; `usageReply` the usage message sent without invoking
the handler; `ran args replies` the handler invoked with exactly `args`,
producing `replies` via `_try_except_run`. -/
inductive DispatchOutcome where
  | error
  | noCommand
  | usageReply (text : Str)
  | ran (args : List Str) (replies : List Str)
  deriving Repr

/-- Embedding of `_command_dispatcher` (`bot.py` lines 44-53), with the
command registry passed explicitly. -/
def command_dispatcher (reg : Str → Option CommandEntry) (ev : Event) :
    DispatchOutcome :=
  match ev.message with
  | none => .error
  | some msg =>
    match wsSplit msg with
    | [] => .error
    | command_name :: params =>
      match reg command_name with
      | none => .noCommand
      | some entry =>
        if entry.minargs ≤ params.length ∧ params.length ≤ entry.maxargs then
          .ran params (try_except_run (entry.func ev params))
        else
          .usageReply (joinSpace [("Usage:".toList), entry.usage])

/-- Reply texts produced by a dispatch outcome (an `error` outcome kills
only the spawned dispatcher task, after no reply was sent). -/
def outcomeReplies : DispatchOutcome → List Str
  | .error => []
  | .noCommand => []
  | .usageReply t => [t]
  | .ran _ rs => rs

/-- Reply texts produced when the main loop hands an event to the handler
registry of `bot.py`, whose only built-in handler is `_command_dispatcher`
registered for `PRIVMSG`. -/
def dispatchEvent (reg : Str → Option CommandEntry) (ev : Event) : List Str :=
  if ev.command = "PRIVMSG".toList then
    outcomeReplies (command_dispatcher reg ev)
  else []

/-- Result of running the main loop on a list of inbound lines: `sent` is
the outbound wire lines written directly by the loop (the pongs), and
`dispatched` pairs each event built from a line with the reply texts its
dispatch produced.  `crashed` records an uncaught parse failure: the lines
processed so far and the offending line; later lines are never read. -/
inductive LoopResult where
  | ok (sent : List Str) (dispatched : List (Event × List Str))
  | crashed (sent : List Str) (dispatched : List (Event × List Str))
      (badLine : Str)
  deriving Repr

/-- Embedding of `IrcBot.mainloop` (`bot.py` lines 234-252): for each line,
answer `PING` immediately with the first occurrence replaced by `PONG` and
no parsing or dispatch; otherwise parse (a failure is uncaught and stops
the loop) and dispatch the event. -/
def mainloopRun (reg : Str → Option CommandEntry) : List Str → LoopResult
  | [] => .ok [] []
  | line :: rest =>
    if pyStartsWith ("PING".toList) line then
      match mainloopRun reg rest with
      | .ok s d =>
        .ok (send [replaceFirst ("PING".toList) ("PONG".toList) line] :: s) d
      | .crashed s d b =>
        .crashed (send [replaceFirst ("PING".toList) ("PONG".toList) line] :: s)
          d b
    else
      match parse_message line with
      | none => .crashed [] [] line
      | some ev =>
        match mainloopRun reg rest with
        | .ok s d => .ok s ((ev, dispatchEvent reg ev) :: d)
        | .crashed s d b => .crashed s ((ev, dispatchEvent reg ev) :: d) b

/-- Declared parameter of a Python handler, as `inspect.signature` reports
it: its name and whether it carries a default value. -/
structure PyParam where
  name : Str
  hasDefault : Bool
  deriving DecidableEq, Repr

/-- Usage field the `command` decorator appends for one declared
parameter (`bot.py` lines 89 and 92): the name uppercased, bracketed when
the parameter has a default value. -/
def usageField (p : PyParam) : Str :=
  if p.hasDefault then '[' :: pyUpper p.name ++ [']'] else pyUpper p.name

/-- Embedding of the introspection loop of the `command` decorator
(`bot.py` lines 87-93): walk the parameters after the event parameter,
collecting the usage fields in declaration order and the counts of
required and optional parameters. -/
def introspect : List PyParam → List Str × Nat × Nat
  | [] => ([], 0, 0)
  | p :: rest =>
    let r := introspect rest
    if p.hasDefault then (usageField p :: r.1, r.2.1, r.2.2 + 1)
    else (usageField p :: r.1, r.2.1 + 1, r.2.2)

/-- Metadata stored for a command by the `command` decorator, without the
handler itself: `(usage, min_args, max_args)`. -/
structure CommandMeta where
  usage : Str
  minargs : Nat
  maxargs : Nat
  deriving DecidableEq, Repr

/-- Embedding of the `command` decorator's registration body
(`bot.py` lines 80-98): skip the event parameter (`none` models the
`StopIteration` from `next` on an empty signature), introspect the rest,
and store the usage string and the inclusive argument bounds. -/
def commandRegister (command_name : Str) (sig : List PyParam) :
    Option CommandMeta :=
  match sig with
  | [] => none
  | _ :: ps =>
    let r := introspect ps
    some { usage := joinSpace (command_name :: r.1),
           minargs := r.2.1, maxargs := r.2.1 + r.2.2 }

/-- Registry view used by the help command: each registered name with the
handler's docstring (`none` when absent) and its usage string, in
registration order. -/
structure HelpEntry where
  doc : Option Str
  usage : Str
  deriving DecidableEq, Repr

/-- Embedding of the lookup in `do_help` (`bot.py` lines 126-137): exact
name first, then the first registered name equal up to stripping leading
and trailing punctuation from both sides. -/
def helpLookup (cmds : List (Str × HelpEntry)) (command : Str) :
    Option HelpEntry :=
  match cmds.find? (fun p => decide (p.1 = command)) with
  | some p => some p.2
  | none =>
    match cmds.find?
        (fun p => decide (pyStrip isPunct p.1 = pyStrip isPunct command)) with
    | some p => some p.2
    | none => none

/-- Python `' '.join(doc.split())`: collapse every whitespace run,
newlines included, to a single space, and strip the ends. -/
def collapseWs (s : Str) : Str := joinSpace (wsSplit s)

/-- Embedding of the with-argument branch of `do_help`
(`bot.py` lines 125-144): strip the argument, look the command up, and
reply either the not-found message or `usage + ": " + doc` where `doc` is
the whole docstring with whitespace collapsed, defaulting to
`"No description provided."`. -/
def do_help_reply (cmds : List (Str × HelpEntry)) (arg : Str) : Str :=
  let command := pyStrip isSpaceChar arg
  match helpLookup cmds command with
  | none => ("No command called ".toList) ++ command ++ (" :(".toList)
  | some entry =>
    match entry.doc with
    | none => entry.usage ++ ':' :: ' ' :: ("No description provided.".toList)
    | some d => entry.usage ++ ':' :: ' ' :: collapseWs d

/-- Modelled from the spec: `firstLineOfDocumentation`, the documentation
text up to the first newline.  This follows the spec's words, for
comparison with `do_help_reply`; the source has no such function. -/
def specFirstLine (s : Str) : Str :=
  match breakOnChar '\n' s with
  | none => s
  | some (pre, _) => pre

/-! Helper lemmas about the string primitives and the parser. -/

theorem breakOnSpColon_eq_some (p : Str) :
    ∀ pre post, breakOnSpColon p = some (pre, post) →
      p = pre ++ ' ' :: ':' :: post ∧ containsSpColon pre = false := by
  induction p using breakOnSpColon.induct with
  | case1 =>
    intro pre post h
    simp [breakOnSpColon] at h
  | case2 c =>
    intro pre post h
    simp [breakOnSpColon] at h
  | case3 c1 c2 rest h =>
    intro pre post hb
    simp only [breakOnSpColon, if_pos h] at hb
    obtain ⟨rfl, rfl⟩ := Prod.mk.injEq .. ▸ (Option.some.injEq .. ▸ hb)
    exact ⟨by simp [h.1, h.2], rfl⟩
  | case4 c1 c2 rest hne pre' post' hrec ih =>
    intro pre post hb
    simp only [breakOnSpColon, if_neg hne, hrec] at hb
    obtain ⟨rfl, rfl⟩ := Prod.mk.injEq .. ▸ (Option.some.injEq .. ▸ hb)
    obtain ⟨hdec, hpre⟩ := ih pre' post' hrec
    refine ⟨by rw [List.cons_append, ← hdec], ?_⟩
    cases hp' : pre' with
    | nil => simp [containsSpColon]
    | cons d ds =>
      rw [hp'] at hdec hpre
      have hd : d = c2 := by
        injection hdec with h1 _
        exact h1.symm
      simp only [containsSpColon, Bool.or_eq_false_iff]
      refine ⟨?_, hpre⟩
      by_contra hcontra
      simp only [Bool.not_eq_false, decide_eq_true_eq] at hcontra
      exact hne ⟨hcontra.1, hd ▸ hcontra.2⟩
  | case5 c1 c2 rest hne hrec ih =>
    intro pre post hb
    simp [breakOnSpColon, if_neg hne, hrec] at hb

theorem breakOnSpColon_eq_none (p : Str) :
    breakOnSpColon p = none ↔ containsSpColon p = false := by
  induction p using breakOnSpColon.induct with
  | case1 => simp [breakOnSpColon, containsSpColon]
  | case2 c => simp [breakOnSpColon, containsSpColon]
  | case3 c1 c2 rest h =>
    simp [breakOnSpColon, containsSpColon, if_pos h, h.1, h.2]
  | case4 c1 c2 rest hne pre post hrec ih =>
    have hcr : containsSpColon (c2 :: rest) = true := by
      by_contra hc
      simp only [Bool.not_eq_true] at hc
      rw [ih.mpr hc] at hrec
      exact Option.noConfusion hrec
    simp [breakOnSpColon, if_neg hne, hrec, containsSpColon, hcr]
  | case5 c1 c2 rest hne hrec ih =>
    have hcr := ih.mp hrec
    simp [breakOnSpColon, if_neg hne, hrec, containsSpColon, hcr, hne]

theorem splitOnChar_of_not_mem (sep : Char) (p : Str) (h : sep ∉ p) :
    splitOnChar sep p = [p] := by
  induction p with
  | nil => rfl
  | cons c rest ih =>
    have hc : c ≠ sep := fun hh => h (hh ▸ List.mem_cons_self c rest)
    have hr : sep ∉ rest := fun hh => h (List.mem_cons_of_mem c hh)
    simp only [splitOnChar, ih hr]
    simp [hc]

theorem containsSpColon_of_no_space (p : Str) (h : ' ' ∉ p) :
    containsSpColon p = false := by
  induction p using containsSpColon.induct with
  | case1 => rfl
  | case2 c => rfl
  | case3 c1 c2 rest ih =>
    have h1 : c1 ≠ ' ' := fun hh => h (hh ▸ List.mem_cons_self c1 _)
    have h2 : ' ' ∉ c2 :: rest := fun hh => h (List.mem_cons_of_mem c1 hh)
    simp [containsSpColon, h1, ih h2]

theorem addConvenience_preserve (ev ev' : Event)
    (h : addConvenience ev = some ev') :
    ev'.params = ev.params ∧ ev'.command = ev.command ∧
      ev'.sender = ev.sender := by
  unfold addConvenience at h
  split at h
  · match hp : ev.params, h with
    | [t], h => cases h; simp
  · split at h
    · match hp : ev.params, h with
      | [t, m], h => cases h; simp
    · split at h
      · match hp : ev.params, h with
        | [c, t, r], h => cases h; simp
      · cases h; exact ⟨rfl, rfl, rfl⟩

theorem addConvenience_join (ev : Event) (t : Str)
    (hc : ev.command = "JOIN".toList) (hp : ev.params = [t]) :
    addConvenience ev = some { ev with target := some t } := by
  simp [addConvenience, hc, hp]

theorem parse_message_inv (l : Str) (ev : Event) (s c p : Str)
    (hs : split2 (stripCRLF l) = some (s, c, p))
    (hp : parse_message l = some ev) :
    ev.params = buildParams p ∧ ev.command = c ∧
      ∃ snd, parse_sender s = some snd ∧ ev.sender = snd ∧
        addConvenience
          { sender := snd, command := c, params := buildParams p } =
          some ev := by
  unfold parse_message at hp
  rw [hs] at hp
  simp only at hp
  cases hsnd : parse_sender s with
  | none => rw [hsnd] at hp; exact Option.noConfusion hp
  | some snd =>
    rw [hsnd] at hp
    simp only at hp
    obtain ⟨h1, h2, h3⟩ := addConvenience_preserve _ _ hp
    exact ⟨h1, h2, snd, rfl, h3, hp⟩

theorem splitWhen_ne_nil (p : Char → Bool) (s : Str) :
    splitWhen p s ≠ [] := by
  cases s with
  | nil => simp [splitWhen]
  | cons c rest =>
    cases h : splitWhen p rest with
    | nil => simp [splitWhen, h]
    | cons a t =>
      simp only [splitWhen, h]
      split <;> simp

theorem splitWhen_all_nil (p : Char → Bool) (s : Str) :
    (∀ w ∈ splitWhen p s, w = []) ↔ ∀ c ∈ s, p c = true := by
  induction s with
  | nil => simp [splitWhen]
  | cons c rest ih =>
    cases h : splitWhen p rest with
    | nil => exact absurd h (splitWhen_ne_nil _ _)
    | cons a t =>
      rw [h] at ih
      rw [splitWhen, h]
      dsimp only
      by_cases hc : p c = true
      · rw [if_pos hc]
        simp only [List.forall_mem_cons, hc, true_and] at ih ⊢
        exact ih
      · rw [if_neg hc]
        simp only [List.forall_mem_cons] at ih ⊢
        constructor
        · intro hh
          exact absurd hh.1 (by simp)
        · intro hh
          exact absurd hh.1 hc

theorem wsSplit_nil_iff (s : Str) :
    wsSplit s = [] ↔ ∀ c ∈ s, isSpaceChar c = true := by
  rw [wsSplit, List.filter_eq_nil_iff]
  simpa using splitWhen_all_nil isSpaceChar s

theorem joinSpace_cons (a : Str) (l : List Str) (h : l ≠ []) :
    joinSpace (a :: l) = a ++ ' ' :: joinSpace l := by
  cases l with
  | nil => exact absurd rfl h
  | cons b t => rfl

theorem joinSpace_pair (a b : Str) : joinSpace [a, b] = a ++ ' ' :: b := rfl

theorem joinSpace_mem_infix (field : Str) (l : List Str) (h : field ∈ l) :
    ∃ pre post, joinSpace l = pre ++ field ++ post := by
  induction l with
  | nil => simp at h
  | cons a t ih =>
    rcases List.mem_cons.mp h with rfl | hmem
    · cases t with
      | nil => exact ⟨[], [], by simp [joinSpace]⟩
      | cons b t2 =>
        exact ⟨[], ' ' :: joinSpace (b :: t2),
          by simp [joinSpace_cons field (b :: t2) (by simp)]⟩
    · obtain ⟨pre, post, hpp⟩ := ih hmem
      refine ⟨a ++ ' ' :: pre, post, ?_⟩
      rw [joinSpace_cons a t (List.ne_nil_of_mem hmem), hpp]
      simp

theorem introspect_spec (ps : List PyParam) :
    (introspect ps).1 = ps.map usageField ∧
    (introspect ps).2.1 =
      (ps.filter (fun p => p.hasDefault = false)).length ∧
    (introspect ps).2.2 =
      (ps.filter (fun p => p.hasDefault = true)).length := by
  induction ps with
  | nil => simp [introspect]
  | cons p t ih =>
    by_cases h : p.hasDefault = true <;>
      simp [introspect, h, ih.1, ih.2.1, ih.2.2, List.filter_cons]

theorem send_endsWith (data : List Str) :
    pyEndsWith ("\r\n".toList) (send data) = true := by
  simp only [send]
  split
  · assumption
  · unfold pyEndsWith
    rw [List.reverse_append]
    exact List.isPrefixOf_iff_prefix.mpr (List.prefix_append _ _)

/-! Concrete data used by the witnesses. -/

/-- Concrete exception used in the demonstrations. -/
def demoExc : PyExc :=
  { kind := "ValueError".toList, msg := "bad input".toList }

/-- Concrete command entry whose handler raises `demoExc` immediately. -/
def demoBoom : CommandEntry :=
  { func := fun _ _ => ([], some demoExc), usage := "!boom".toList,
    minargs := 0, maxargs := 0 }

/-- Concrete command entry registered with `maxArgs = 2` whose handler
sends nothing and raises nothing. -/
def demoCmd : CommandEntry :=
  { func := fun _ _ => ([], none), usage := "!cmd [A] [B]".toList,
    minargs := 0, maxargs := 2 }

/-- Concrete command registry holding `demoBoom` and `demoCmd`. -/
def demoReg : Str → Option CommandEntry := fun n =>
  if n = "!boom".toList then some demoBoom
  else if n = "!cmd".toList then some demoCmd
  else none

/-- Concrete well-formed PRIVMSG line. -/
def demoLine1 : Str := ":nick!u@h PRIVMSG #chan :hello world\r\n".toList

/-- Event the parser produces for `demoLine1`. -/
def demoEvent1 : Event :=
  { sender := .user ("nick".toList) ("u".toList) ("h".toList),
    command := "PRIVMSG".toList,
    params := [("#chan".toList), ("hello world".toList)],
    target := some ("#chan".toList),
    message := some ("hello world".toList) }

/-! Claim theorems. -/

/-- C1: for every raw protocol line accepted by the parser, after splitting
off the sender prefix and the command verb, the `params` list is the
space-split of the text before the first `" :"` followed by everything
after it as one trailing element when the parameter string contains `" :"`,
and the plain space-split of the whole parameter string otherwise. -/
theorem C1_param_list (l : Str) (ev : Event) (s c p : Str)
    (hs : split2 (stripCRLF l) = some (s, c, p))
    (hp : parse_message l = some ev) :
    (containsSpColon p = true →
       ∃ pre post, p = pre ++ ' ' :: ':' :: post ∧
         containsSpColon pre = false ∧
         ev.params = splitOnChar ' ' pre ++ [post]) ∧
    (containsSpColon p = false → ev.params = splitOnChar ' ' p) := by
  obtain ⟨hparams, -, -⟩ := parse_message_inv l ev s c p hs hp
  constructor
  · intro hct
    cases hb : breakOnSpColon p with
    | none =>
      rw [(breakOnSpColon_eq_none p).mp hb] at hct
      exact absurd hct (by simp)
    | some pr =>
      obtain ⟨pre, post⟩ := pr
      obtain ⟨hdec, hpre⟩ := breakOnSpColon_eq_some p pre post hb
      exact ⟨pre, post, hdec, hpre, by rw [hparams]; simp [buildParams, hb]⟩
  · intro hcf
    have hb : breakOnSpColon p = none := (breakOnSpColon_eq_none p).mpr hcf
    rw [hparams]
    simp [buildParams, hb]

/-- Witness for C1 at the concrete line `demoLine1`, whose parameter
string `"#chan :hello world"` contains `" :"`. -/
theorem C1_param_list_witness :
    ∃ pre post, ("#chan :hello world".toList) = pre ++ ' ' :: ':' :: post ∧
      containsSpColon pre = false ∧
      demoEvent1.params = splitOnChar ' ' pre ++ [post] :=
  (C1_param_list demoLine1 demoEvent1 (":nick!u@h".toList)
    ("PRIVMSG".toList) ("#chan :hello world".toList)
    (by decide) (by decide)).1 (by decide)

/-- C8: a raw line with fewer than three space-separated top-level parts,
or whose first part does not start with `":"`, makes the parser fail
instead of returning an event, and in the unhardened main loop this
failure is not caught: the loop stops at the offending line. -/
theorem C8_malformed_line (reg : Str → Option CommandEntry) (l : Str)
    (rest : List Str) :
    ((splitOnChar ' ' (stripCRLF l)).length < 3 → parse_message l = none) ∧
    (∀ s c p, split2 (stripCRLF l) = some (s, c, p) →
       pyStartsWith (":".toList) s = false → parse_message l = none) ∧
    (pyStartsWith ("PING".toList) l = false → parse_message l = none →
       mainloopRun reg (l :: rest) = .crashed [] [] l) := by
  refine ⟨?_, ?_, ?_⟩
  · intro hlen
    have hsp : split2 (stripCRLF l) = none := by
      unfold split2
      cases hh : splitOnChar ' ' (stripCRLF l) with
      | nil => rfl
      | cons a t =>
        cases t with
        | nil => rfl
        | cons b t2 =>
          cases t2 with
          | nil => rfl
          | cons e t3 =>
            rw [hh] at hlen
            simp at hlen
            omega
    simp [parse_message, hsp]
  · intro s c p hsp hcol
    have hsend : parse_sender s = none := by
      cases s with
      | nil => rfl
      | cons c0 s0 =>
        simp only [pyStartsWith, List.isPrefixOf, Bool.and_eq_false_iff] at hcol
        have hc0 : ¬c0 = ':' := by
          intro hh
          rw [hh] at hcol
          simp at hcol
        simp [parse_sender, hc0]
    simp [parse_message, hsp, hsend]
  · intro hping hnone
    have hping' : pyStartsWith (['P', 'I', 'N', 'G'] : Str) l = false := hping
    simp [mainloopRun, hping', hnone]

/-- Witness for C8 at the two-part line `"foo bar"`. -/
theorem C8_malformed_line_witness :
    parse_message ("foo bar".toList) = none ∧
    mainloopRun demoReg [("foo bar".toList)] =
      .crashed [] [] ("foo bar".toList) := by
  have h := C8_malformed_line demoReg ("foo bar".toList) []
  have hn := h.1 (by decide)
  exact ⟨hn, h.2.2 (by decide) hn⟩

/-- C9: when the whole parameter string is one space-free token beginning
with `":"` (a trailing parameter directly after the verb), no
trailing-parameter treatment applies: `params` is that single token with
its leading colon retained, so for `JOIN` the target keeps the colon. -/
theorem C9_leading_colon_param (l : Str) (ev : Event) (s c p : Str)
    (hs : split2 (stripCRLF l) = some (s, c, p))
    (hp : parse_message l = some ev)
    (hcolon : p.head? = some ':')
    (hnosp : ' ' ∉ p) :
    ev.command = c ∧ ev.params = [p] ∧
      (c = "JOIN".toList → ev.target = some p) := by
  obtain ⟨hparams, hcmd, snd, hsnd, hsender, hconv⟩ :=
    parse_message_inv l ev s c p hs hp
  have hns : containsSpColon p = false := containsSpColon_of_no_space p hnosp
  have hb : breakOnSpColon p = none := (breakOnSpColon_eq_none p).mpr hns
  have hbp : buildParams p = [p] := by
    simp [buildParams, hb, splitOnChar_of_not_mem ' ' p hnosp]
  refine ⟨hcmd, by rw [hparams, hbp], ?_⟩
  intro hjoin
  rw [hbp] at hconv
  rw [addConvenience_join _ p (by simp [hjoin]) rfl] at hconv
  cases hconv
  rfl

/-- Witness for C9 at the concrete line `":nick!u@h JOIN :#chan"`. -/
theorem C9_leading_colon_param_witness :
    ({ sender := .user ("nick".toList) ("u".toList) ("h".toList),
       command := "JOIN".toList, params := [(":#chan".toList)],
       target := some (":#chan".toList) } : Event).command =
        ("JOIN".toList) ∧
    ({ sender := .user ("nick".toList) ("u".toList) ("h".toList),
       command := "JOIN".toList, params := [(":#chan".toList)],
       target := some (":#chan".toList) } : Event).params =
        [(":#chan".toList)] ∧
    ({ sender := .user ("nick".toList) ("u".toList) ("h".toList),
       command := "JOIN".toList, params := [(":#chan".toList)],
       target := some (":#chan".toList) } : Event).target =
        some (":#chan".toList) := by
  have h := C9_leading_colon_param (":nick!u@h JOIN :#chan\r\n".toList)
    { sender := .user ("nick".toList) ("u".toList) ("h".toList),
      command := "JOIN".toList, params := [(":#chan".toList)],
      target := some (":#chan".toList) }
    (":nick!u@h".toList) ("JOIN".toList) (":#chan".toList)
    (by decide) (by decide) (by decide) (by decide)
  exact ⟨h.1, h.2.1, h.2.2 rfl⟩

/-- C4: `reply` resolves the outbound target from `event.params[0]`; the
target is replaced by the sender's nick exactly when that value equals the
bot's own nick, and is used unchanged otherwise; the bytes sent are
`PRIVMSG`, the target, and `":"` followed by the text joined with single
spaces, with `"\r\n"` appended only when not already present, so every
sent line ends in `"\r\n"`. -/
theorem C4_reply_target (nick : Str) (ev : Event) (data : List Str)
    (p0 : Str) (ps : List Str) (hp : ev.params = p0 :: ps) :
    (p0 ≠ nick →
       reply nick ev data =
         some (send [("PRIVMSG".toList), p0, ':' :: joinSpace data])) ∧
    (∀ n u h, p0 = nick → ev.sender = .user n u h →
       reply nick ev data =
         some (send [("PRIVMSG".toList), n, ':' :: joinSpace data])) ∧
    (∀ fields,
       (pyEndsWith ("\r\n".toList) (joinSpace fields) = true →
          send fields = joinSpace fields) ∧
       (pyEndsWith ("\r\n".toList) (joinSpace fields) = false →
          send fields = joinSpace fields ++ ("\r\n".toList))) ∧
    (∀ out, reply nick ev data = some out →
       pyEndsWith ("\r\n".toList) out = true) := by
  refine ⟨?_, ?_, ?_, ?_⟩
  · intro hne
    simp [reply, hp, hne]
  · intro n u h heq hsender
    subst heq
    simp [reply, hp, hsender, senderNick]
  · intro fields
    constructor
    · intro hend
      have hend' : pyEndsWith (['\r', '\n'] : Str) (joinSpace fields) =
          true := hend
      simp [send, hend']
    · intro hend
      have hend' : pyEndsWith (['\r', '\n'] : Str) (joinSpace fields) =
          false := hend
      simp [send, hend']
  · intro out hout
    simp only [reply, hp] at hout
    rcases hsrc : (if p0 = nick then senderNick ev.sender else some p0) with
      _ | src
    · rw [hsrc] at hout
      exact Option.noConfusion hout
    · rw [hsrc] at hout
      simp only [Option.some.injEq] at hout
      rw [← hout]
      exact send_endsWith _

/-- Concrete private-message event: `params[0]` equals the bot nick. -/
def demoEvPriv : Event :=
  { sender := .user ("al".toList) ("u".toList) ("h".toList),
    command := "PRIVMSG".toList,
    params := [("curiomuz".toList), ("hi".toList)],
    target := some ("curiomuz".toList), message := some ("hi".toList) }

/-- Concrete channel-message event: `params[0]` is a channel. -/
def demoEvChan : Event :=
  { sender := .user ("al".toList) ("u".toList) ("h".toList),
    command := "PRIVMSG".toList,
    params := [("#chan".toList), ("hi".toList)],
    target := some ("#chan".toList), message := some ("hi".toList) }

/-- Witness for C4: a private message is answered to the sender's nick, a
channel message to the channel. -/
theorem C4_reply_target_witness :
    reply ("curiomuz".toList) demoEvPriv [("hello".toList)] =
      some ("PRIVMSG al :hello\r\n".toList) ∧
    reply ("curiomuz".toList) demoEvChan [("hello".toList)] =
      some ("PRIVMSG #chan :hello\r\n".toList) := by
  have h1 := C4_reply_target ("curiomuz".toList) demoEvPriv
    [("hello".toList)] ("curiomuz".toList) [("hi".toList)] rfl
  have h2 := C4_reply_target ("curiomuz".toList) demoEvChan
    [("hello".toList)] ("#chan".toList) [("hi".toList)] rfl
  exact ⟨h1.2.1 ("al".toList) ("u".toList) ("h".toList) rfl rfl,
    h2.1 (by decide)⟩

/-- C5: an inbound line starting with `PING` makes the main loop send
exactly one outbound line, the inbound line with only its first `PING`
occurrence replaced by `PONG`, and the line is neither parsed nor
dispatched: the event list is exactly that of the remaining lines. -/
theorem C5_ping_pong (reg : Str → Option CommandEntry) (line : Str)
    (rest : List Str) (s : List Str) (d : List (Event × List Str))
    (hping : pyStartsWith ("PING".toList) line = true)
    (hrest : mainloopRun reg rest = .ok s d) :
    mainloopRun reg (line :: rest) =
      .ok (send [replaceFirst ("PING".toList) ("PONG".toList) line] :: s)
        d := by
  have hping' : pyStartsWith (['P', 'I', 'N', 'G'] : Str) line = true := hping
  simp [mainloopRun, hping', hrest]

/-- Witness for C5: `PING :server123` produces exactly one outbound
`PONG :server123` line and no dispatched event. -/
theorem C5_ping_pong_witness :
    mainloopRun demoReg [("PING :server123\r\n".toList)] =
      .ok [("PONG :server123\r\n".toList)] [] := by
  have h := C5_ping_pong demoReg ("PING :server123\r\n".toList) [] [] []
    (by decide) rfl
  exact h

/-- C2: an exception raised by a dispatched command handler is caught by
`_try_except_run` and answered with exactly one reply whose text is the
exception's type name, `": "`, and its message; the exception does not
reach the main loop, which stays alive and still dispatches the remaining
lines. -/
theorem C2_handler_exception (reg : Str → Option CommandEntry)
    (line : Str) (rest : List Str) (s : List Str)
    (d : List (Event × List Str)) (ev : Event) (msg name : Str)
    (args : List Str) (entry : CommandEntry) (e : PyExc)
    (hping : pyStartsWith ("PING".toList) line = false)
    (hparse : parse_message line = some ev)
    (hcmd : ev.command = "PRIVMSG".toList)
    (hmsg : ev.message = some msg)
    (htok : wsSplit msg = name :: args)
    (hreg : reg name = some entry)
    (hmin : entry.minargs ≤ args.length)
    (hmax : args.length ≤ entry.maxargs)
    (hrun : entry.func ev args = ([], some e))
    (hrest : mainloopRun reg rest = .ok s d) :
    dispatchEvent reg ev = [e.kind ++ ':' :: ' ' :: e.msg] ∧
    mainloopRun reg (line :: rest) =
      .ok s ((ev, [e.kind ++ ':' :: ' ' :: e.msg]) :: d) := by
  have hdisp : dispatchEvent reg ev = [e.kind ++ ':' :: ' ' :: e.msg] := by
    simp only [dispatchEvent, hcmd, if_pos]
    simp only [command_dispatcher, hmsg, htok, hreg]
    rw [if_pos ⟨hmin, hmax⟩]
    simp [outcomeReplies, try_except_run, hrun, excText]
  refine ⟨hdisp, ?_⟩
  have hping' : pyStartsWith (['P', 'I', 'N', 'G'] : Str) line =
      false := hping
  simp [mainloopRun, hping', hparse, hrest, hdisp]

/-- Concrete event carrying the `!boom` command word. -/
def demoEvBoom : Event :=
  { sender := .user ("a".toList) ("b".toList) ("c".toList),
    command := "PRIVMSG".toList,
    params := [("#chan".toList), ("!boom".toList)],
    target := some ("#chan".toList), message := some ("!boom".toList) }

/-- Concrete raw line that parses to `demoEvBoom`. -/
def demoBoomLine : Str := ":a!b@c PRIVMSG #chan :!boom\r\n".toList

/-- Witness for C2: the `!boom` handler raising `ValueError("bad input")`
yields exactly one reply `"ValueError: bad input"` and the loop result
stays `ok`. -/
theorem C2_handler_exception_witness :
    dispatchEvent demoReg demoEvBoom = [("ValueError: bad input".toList)] ∧
    mainloopRun demoReg [demoBoomLine] =
      .ok [] [(demoEvBoom, [("ValueError: bad input".toList)])] := by
  have h := C2_handler_exception demoReg demoBoomLine [] [] [] demoEvBoom
    ("!boom".toList) ("!boom".toList) [] demoBoom demoExc
    (by decide) (by decide) (by decide) (by decide) (by decide) rfl
    (by decide) (by decide) rfl rfl
  exact ⟨h.1, h.2⟩

/-- C3: for a chat message whose first token is a registered command, an
argument-token count outside `[minArgs, maxArgs]` sends exactly one reply,
`"Usage: "` followed by the usage string, and never invokes the handler; a
count within the inclusive bounds invokes the handler with exactly those
tokens. -/
theorem C3_arity_bounds (reg : Str → Option CommandEntry) (ev : Event)
    (msg name : Str) (args : List Str) (entry : CommandEntry)
    (hmsg : ev.message = some msg)
    (htok : wsSplit msg = name :: args)
    (hreg : reg name = some entry) :
    ((args.length < entry.minargs ∨ entry.maxargs < args.length) →
       command_dispatcher reg ev =
         .usageReply (("Usage: ".toList) ++ entry.usage) ∧
       outcomeReplies (command_dispatcher reg ev) =
         [("Usage: ".toList) ++ entry.usage] ∧
       ∀ a r, command_dispatcher reg ev ≠ .ran a r) ∧
    ((entry.minargs ≤ args.length ∧ args.length ≤ entry.maxargs) →
       command_dispatcher reg ev =
         .ran args (try_except_run (entry.func ev args))) := by
  constructor
  · intro hout
    have hcond : ¬(entry.minargs ≤ args.length ∧
        args.length ≤ entry.maxargs) := by omega
    have hd : command_dispatcher reg ev =
        .usageReply (("Usage: ".toList) ++ entry.usage) := by
      simp only [command_dispatcher, hmsg, htok, hreg]
      rw [if_neg hcond]
      rfl
    refine ⟨hd, by rw [hd]; rfl, ?_⟩
    intro a r hcontra
    rw [hd] at hcontra
    exact DispatchOutcome.noConfusion hcontra
  · intro hin
    simp only [command_dispatcher, hmsg, htok, hreg]
    rw [if_pos hin]

/-- Concrete event carrying `!cmd a b c`: three argument tokens against a
command registered with `maxArgs = 2`. -/
def demoEvCmd : Event :=
  { sender := .user ("a".toList) ("b".toList) ("c".toList),
    command := "PRIVMSG".toList,
    params := [("#chan".toList), ("!cmd a b c".toList)],
    target := some ("#chan".toList),
    message := some ("!cmd a b c".toList) }

/-- Witness for C3: dispatching `!cmd a b c` against `demoCmd`
(`maxArgs = 2`) sends exactly one usage reply and does not run the
handler. -/
theorem C3_arity_bounds_witness :
    command_dispatcher demoReg demoEvCmd =
      .usageReply ("Usage: !cmd [A] [B]".toList) ∧
    outcomeReplies (command_dispatcher demoReg demoEvCmd) =
      [("Usage: !cmd [A] [B]".toList)] := by
  have h := (C3_arity_bounds demoReg demoEvCmd ("!cmd a b c".toList)
    ("!cmd".toList) [("a".toList), ("b".toList), ("c".toList)] demoCmd
    rfl (by decide) rfl).1 (Or.inr (by decide))
  exact ⟨h.1, h.2.1⟩

/-- C10: a PRIVMSG whose message body is empty or whitespace-only makes
the command dispatcher raise (unpacking the empty token list fails); the
dispatcher proceeds without raising exactly when the body has at least one
token. -/
theorem C10_empty_command_message (reg : Str → Option CommandEntry)
    (ev : Event) (msg : Str) (hmsg : ev.message = some msg) :
    ((∀ ch ∈ msg, isSpaceChar ch = true) →
       command_dispatcher reg ev = .error) ∧
    (∀ ch, ch ∈ msg → isSpaceChar ch = false →
       command_dispatcher reg ev ≠ .error) := by
  constructor
  · intro hall
    have hnil : wsSplit msg = [] := (wsSplit_nil_iff msg).mpr hall
    simp [command_dispatcher, hmsg, hnil]
  · intro ch hch hns
    have hne : wsSplit msg ≠ [] := by
      intro hnil
      have := (wsSplit_nil_iff msg).mp hnil ch hch
      rw [hns] at this
      exact Bool.noConfusion this
    cases htok : wsSplit msg with
    | nil => exact absurd htok hne
    | cons name args =>
      simp only [command_dispatcher, hmsg, htok]
      cases hreg : reg name with
      | none => simp
      | some entry =>
        dsimp only
        split <;> simp

/-- Concrete event whose message body is whitespace only. -/
def demoEvBlank : Event :=
  { sender := .user ("a".toList) ("b".toList) ("c".toList),
    command := "PRIVMSG".toList,
    params := [("#chan".toList), ("   ".toList)],
    target := some ("#chan".toList), message := some ("   ".toList) }

/-- Concrete event whose message body is one no-break space (U+00A0),
one of the non-ASCII characters Python's bare `str.split()` treats as
whitespace. -/
def demoEvNbsp : Event :=
  { sender := .user ("a".toList) ("b".toList) ("c".toList),
    command := "PRIVMSG".toList,
    params := [("#chan".toList), ("\u00A0".toList)],
    target := some ("#chan".toList), message := some ("\u00A0".toList) }

/-- Witness for C10: both the ASCII whitespace-only message `"   "` and
the sole no-break space U+00A0 make the dispatcher raise. -/
theorem C10_empty_command_message_witness :
    command_dispatcher demoReg demoEvBlank = .error ∧
    command_dispatcher demoReg demoEvNbsp = .error :=
  ⟨(C10_empty_command_message demoReg demoEvBlank ("   ".toList) rfl).1
      (by decide),
   (C10_empty_command_message demoReg demoEvNbsp ("\u00A0".toList) rfl).1
      (by decide)⟩

theorem introspect_total (ps : List PyParam) :
    (introspect ps).2.1 + (introspect ps).2.2 = ps.length := by
  induction ps with
  | nil => rfl
  | cons p t ih =>
    by_cases h : p.hasDefault = true <;> simp [introspect, h] <;> omega

/-- C6: registering a command derives `minArgs` as the count of declared
parameters after the event parameter that have no default value and
`maxArgs` as the total count of those parameters, and builds the usage
string from the command name and the parameter names uppercased in
declaration order, optional ones bracketed, so each declared field occurs
inside the usage string; in particular `(event, target=None)` yields
`minArgs = 0`, `maxArgs = 1` and usage `"!hello [TARGET]"`. -/
theorem C6_registration_bounds (name : Str) (p0 : PyParam)
    (ps : List PyParam) :
    ∃ meta, commandRegister name (p0 :: ps) = some meta ∧
      meta.minargs = (ps.filter (fun q => q.hasDefault = false)).length ∧
      meta.maxargs = ps.length ∧
      meta.usage = joinSpace (name :: ps.map usageField) ∧
      (∀ q ∈ ps, ∃ pre post, meta.usage = pre ++ usageField q ++ post) ∧
      commandRegister ("!hello".toList)
          [{ name := "event".toList, hasDefault := false },
           { name := "target".toList, hasDefault := true }] =
        some { usage := "!hello [TARGET]".toList, minargs := 0,
               maxargs := 1 } := by
  obtain ⟨hu, hreq, -⟩ := introspect_spec ps
  refine ⟨{ usage := joinSpace (name :: (introspect ps).1),
            minargs := (introspect ps).2.1,
            maxargs := (introspect ps).2.1 + (introspect ps).2.2 },
    rfl, hreq, ?_, by rw [hu], ?_, by decide⟩
  · show (introspect ps).2.1 + (introspect ps).2.2 = ps.length
    exact introspect_total ps
  · intro q hq
    have hmem : usageField q ∈ name :: ps.map usageField :=
      List.mem_cons_of_mem name (List.mem_map_of_mem usageField hq)
    obtain ⟨pre, post, hpp⟩ := joinSpace_mem_infix (usageField q)
      (name :: ps.map usageField) hmem
    refine ⟨pre, post, ?_⟩
    show joinSpace (name :: (introspect ps).1) = pre ++ usageField q ++ post
    rw [hu]
    exact hpp

/-- C7 (amended): the help command's reply for a found command equals the
usage string, then `": "`, then the handler's whole documentation with
every whitespace run (newlines included) collapsed to a single space, the
text `"No description provided."` standing in when the handler has no
documentation. -/
theorem C7_help_doc (cmds : List (Str × HelpEntry)) (arg : Str)
    (entry : HelpEntry)
    (hfind : helpLookup cmds (pyStrip isSpaceChar arg) = some entry) :
    (entry.doc = none →
       do_help_reply cmds arg =
         entry.usage ++ ':' :: ' ' ::
           ("No description provided.".toList)) ∧
    (∀ d, entry.doc = some d →
       do_help_reply cmds arg =
         entry.usage ++ ':' :: ' ' :: collapseWs d) := by
  constructor
  · intro hdoc
    simp [do_help_reply, hfind, hdoc]
  · intro d hdoc
    simp [do_help_reply, hfind, hdoc]

/-- Registry used by the help-command demonstrations: one command whose
docstring has a second line. -/
def demoHelpCmds : List (Str × HelpEntry) :=
  [(("!hi".toList),
    { doc := some ("Say hi.\nMore stuff.".toList), usage := "!hi".toList })]

/-- C7 counterexample: for a two-line docstring the code's reply carries
the whole collapsed docstring, not the first line of the documentation as
the claim states. -/
theorem C7_help_first_line_cex :
    do_help_reply demoHelpCmds ("!hi".toList) ≠
      ("!hi".toList) ++ ':' :: ' ' ::
        collapseWs (specFirstLine ("Say hi.\nMore stuff.".toList)) := by
  decide

/-- Witness for C7 at `demoHelpCmds`. -/
theorem C7_help_doc_witness :
    do_help_reply demoHelpCmds ("!hi".toList) =
      ("!hi".toList) ++ ':' :: ' ' ::
        collapseWs ("Say hi.\nMore stuff.".toList) :=
  (C7_help_doc demoHelpCmds ("!hi".toList)
    { doc := some ("Say hi.\nMore stuff.".toList), usage := "!hi".toList }
    (by decide)).2 ("Say hi.\nMore stuff.".toList) rfl

end Curiomuz
